import Mathlib

/-!
Verification of the ctru-rt IPC core against its specification.

This file shallowly embeds the parts of the ctru-rt repository that the
checked claims are about:

* the result-code codec (src/src/result.rs),
* the IPC header, translate descriptors, command-buffer writer and reply
  parser (src/src/ipc/mod.rs, src/src/ipc/reply.rs),
* the shared-memory address-space allocator (src/src/os/sharedmem.rs),
* the lazy atomic handle cell (src/src/sync.rs).

Machine integers (u32, usize on the 32-bit target) are modelled as Nat with
an explicit modulus 2 ^ 32 at the operations where the source can overflow.
Code paths that panic in the source are modelled as Option-valued functions
returning none. Kernel oracles (the query-memory syscall, syscall failure
of map or unmap) are passed in as explicit parameters.
-/

namespace CtruRt

/-- Width modulus of the 32-bit machine words used throughout. -/
def U32_MOD : Nat := 2 ^ 32

/-! ## Result-code codec (src/src/result.rs)

The Level, Summary and Module enumerations and their integer conversions are
transcribed from the source. A value of the Rust type u8 is modelled as a
Nat; the one place where the u8 type itself bounds a value (the payload of
Module.unknown) takes an explicit mod 256. -/

/-- Level enumeration of src/src/result.rs. -/
inductive Level where
  | success | info | status | temporary | permanent | usage
  | reinit | reset | fatal
  | unknown (code : Nat)
deriving DecidableEq

/-- Conversion impl Into u32 for Level (src/src/result.rs). -/
def Level.intoU32 : Level → Nat
  | .success => 0
  | .info => 1
  | .status => 25
  | .temporary => 26
  | .permanent => 27
  | .usage => 28
  | .reinit => 29
  | .reset => 30
  | .fatal => 31
  | .unknown code => code &&& 31

/-- The match shared by impl From u32 for Level and ResultValue::level. -/
def Level.ofCode : Nat → Level
  | 0 => .success
  | 1 => .info
  | 25 => .status
  | 26 => .temporary
  | 27 => .permanent
  | 28 => .usage
  | 29 => .reinit
  | 30 => .reset
  | 31 => .fatal
  | c => .unknown c

/-- Summary enumeration of src/src/result.rs. -/
inductive Summary where
  | success | nop | wouldBlock | outOfResource | notFound | invalidState
  | notSupported | invalidArgument | wrongArgument | canceled | statusChanged
  | internal | invalidResultValue
  | unknown (code : Nat)
deriving DecidableEq

/-- Conversion impl Into u32 for Summary (src/src/result.rs). -/
def Summary.intoU32 : Summary → Nat
  | .success => 0
  | .nop => 1
  | .wouldBlock => 2
  | .outOfResource => 3
  | .notFound => 4
  | .invalidState => 5
  | .notSupported => 6
  | .invalidArgument => 7
  | .wrongArgument => 8
  | .canceled => 9
  | .statusChanged => 10
  | .internal => 11
  | .invalidResultValue => 63
  | .unknown code => code &&& 63

/-- The match shared by impl From u32 for Summary and ResultValue::summary. -/
def Summary.ofCode : Nat → Summary
  | 0 => .success
  | 1 => .nop
  | 2 => .wouldBlock
  | 3 => .outOfResource
  | 4 => .notFound
  | 5 => .invalidState
  | 6 => .notSupported
  | 7 => .invalidArgument
  | 8 => .wrongArgument
  | 9 => .canceled
  | 10 => .statusChanged
  | 11 => .internal
  | 63 => .invalidResultValue
  | c => .unknown c

/-- Module enumeration of src/src/result.rs (all variants transcribed). -/
inductive Module where
  | common | kernel | util | fileServer | loaderServer | tcb | os | dbg
  | dmnt | pdn | gsp | i2c | gpio | dd | codec | spi | pxi | fs | di | hid
  | cam | pi | pm | pmLow | fsi | srv | ndm | nwm | soc | ldr | acc | romFs
  | am | hio | updater | mic | fnd | mp | mpwl | ac | http | dsp | snd | dlp
  | hioLow | csnd | ssl | amLow | nex | friends | rdt | applet | nim | ptm
  | midi | mc | swc | fatFs | ngc | card | cardNor | sdmc | boss | dbm
  | config | ps | cec | ir | uds | pl | cup | gyroscope | mcu | ns | news
  | ro | gd | cardSpi | ec | webBrowser | test | enc | pia | act | vctL
  | olv | neia | npns | avd | l2b | mvd | nfc | uart | spm | qtm | nfp
  | application | invalid
  | unknown (m : Nat)

/-- Conversion impl Into u8 for Module (src/src/result.rs). The unknown
payload is reduced mod 256 because its Rust type is u8. Note that the
source maps Module::Invalid to 0, not to 255. -/
def Module.intoU8 : Module → Nat
  | .common => 0 | .kernel => 1 | .util => 2 | .fileServer => 3
  | .loaderServer => 4 | .tcb => 5 | .os => 6 | .dbg => 7 | .dmnt => 8
  | .pdn => 9 | .gsp => 10 | .i2c => 11 | .gpio => 12 | .dd => 13
  | .codec => 14 | .spi => 15 | .pxi => 16 | .fs => 17 | .di => 18
  | .hid => 19 | .cam => 20 | .pi => 21 | .pm => 22 | .pmLow => 23
  | .fsi => 24 | .srv => 25 | .ndm => 26 | .nwm => 27 | .soc => 28
  | .ldr => 29 | .acc => 30 | .romFs => 31 | .am => 32 | .hio => 33
  | .updater => 34 | .mic => 35 | .fnd => 36 | .mp => 37 | .mpwl => 38
  | .ac => 39 | .http => 40 | .dsp => 41 | .snd => 42 | .dlp => 43
  | .hioLow => 44 | .csnd => 45 | .ssl => 46 | .amLow => 47 | .nex => 48
  | .friends => 49 | .rdt => 50 | .applet => 51 | .nim => 52 | .ptm => 53
  | .midi => 54 | .mc => 55 | .swc => 56 | .fatFs => 57 | .ngc => 58
  | .card => 59 | .cardNor => 60 | .sdmc => 61 | .boss => 62 | .dbm => 63
  | .config => 64 | .ps => 65 | .cec => 66 | .ir => 67 | .uds => 68
  | .pl => 69 | .cup => 70 | .gyroscope => 71 | .mcu => 72 | .ns => 73
  | .news => 74 | .ro => 75 | .gd => 76 | .cardSpi => 77 | .ec => 78
  | .webBrowser => 79 | .test => 80 | .enc => 81 | .pia => 82 | .act => 83
  | .vctL => 84 | .olv => 85 | .neia => 86 | .npns => 87 | .avd => 90
  | .l2b => 91 | .mvd => 92 | .nfc => 93 | .uart => 94 | .spm => 95
  | .qtm => 96 | .nfp => 97 | .application => 254 | .invalid => 0
  | .unknown m => m % 256

/-- Conversion impl From u8 for Module (src/src/result.rs). Note that 255
maps to Module.invalid, whose Into u8 conversion yields 0. -/
def Module.ofU8 : Nat → Module
  | 0 => .common | 1 => .kernel | 2 => .util | 3 => .fileServer
  | 4 => .loaderServer | 5 => .tcb | 6 => .os | 7 => .dbg | 8 => .dmnt
  | 9 => .pdn | 10 => .gsp | 11 => .i2c | 12 => .gpio | 13 => .dd
  | 14 => .codec | 15 => .spi | 16 => .pxi | 17 => .fs | 18 => .di
  | 19 => .hid | 20 => .cam | 21 => .pi | 22 => .pm | 23 => .pmLow
  | 24 => .fsi | 25 => .srv | 26 => .ndm | 27 => .nwm | 28 => .soc
  | 29 => .ldr | 30 => .acc | 31 => .romFs | 32 => .am | 33 => .hio
  | 34 => .updater | 35 => .mic | 36 => .fnd | 37 => .mp | 38 => .mpwl
  | 39 => .ac | 40 => .http | 41 => .dsp | 42 => .snd | 43 => .dlp
  | 44 => .hioLow | 45 => .csnd | 46 => .ssl | 47 => .amLow | 48 => .nex
  | 49 => .friends | 50 => .rdt | 51 => .applet | 52 => .nim | 53 => .ptm
  | 54 => .midi | 55 => .mc | 56 => .swc | 57 => .fatFs | 58 => .ngc
  | 59 => .card | 60 => .cardNor | 61 => .sdmc | 62 => .boss | 63 => .dbm
  | 64 => .config | 65 => .ps | 66 => .cec | 67 => .ir | 68 => .uds
  | 69 => .pl | 70 => .cup | 71 => .gyroscope | 72 => .mcu | 73 => .ns
  | 74 => .news | 75 => .ro | 76 => .gd | 77 => .cardSpi | 78 => .ec
  | 79 => .webBrowser | 80 => .test | 81 => .enc | 82 => .pia | 83 => .act
  | 84 => .vctL | 85 => .olv | 86 => .neia | 87 => .npns | 90 => .avd
  | 91 => .l2b | 92 => .mvd | 93 => .nfc | 94 => .uart | 95 => .spm
  | 96 => .qtm | 97 => .nfp | 254 => .application | 255 => .invalid
  | m => .unknown m

/-- ResultCode::new of src/src/result.rs:
level shl 27 or summary shl 21 or module shl 10 or (description and 0x3FF). -/
def ResultCode.new (l : Level) (s : Summary) (m : Module) (d : Nat) : Nat :=
  l.intoU32 <<< 27 ||| s.intoU32 <<< 21 ||| m.intoU8 <<< 10 ||| (d &&& 1023)

/-- ResultValue::level of src/src/result.rs (decoder on bits 27..31). -/
def rcLevel (v : Nat) : Level := Level.ofCode ((v >>> 27) &&& 31)

/-- ResultValue::summary of src/src/result.rs (decoder on bits 21..26). -/
def rcSummary (v : Nat) : Summary := Summary.ofCode ((v >>> 21) &&& 63)

/-- ResultValue::module of src/src/result.rs (decoder on bits 10..17). -/
def rcModule (v : Nat) : Module := Module.ofU8 ((v >>> 10) &&& 255)

/-- ResultValue::description of src/src/result.rs (decoder on bits 0..9). -/
def rcDescription (v : Nat) : Nat := v &&& 1023

/-- ResultValue::is_ok of src/src/result.rs: zero is the success value. -/
def rcIsOk (v : Nat) : Bool := v == 0

/-! ## IPC command buffer protocol (src/src/ipc/mod.rs and src/src/ipc/reply.rs)

The per-thread command buffer is a fixed window of 0x80 words. The writer
is modelled by the list of words written so far, whose length is the
current cursor offset from the window start; the reply reader is modelled
by the buffer contents as a function from word offsets together with the
read cursor offset. Functions that can panic in the source return Option,
with none standing for the abort. -/

/-- COMMAND_BUFFER_LENGTH of src/src/ipc/mod.rs. -/
def COMMAND_BUFFER_LENGTH : Nat := 0x80

/-- IpcHeader::new of src/src/ipc/mod.rs:
command_id shl 16 or (normal and 0x3F) shl 6 or (translate and 0x3F).
The mod 2 ^ 16 renders the u16 type of the command_id argument. -/
def IpcHeader.new (command_id normal_param_words translate_param_words : Nat) : Nat :=
  (command_id % 2 ^ 16) <<< 16 |||
    (normal_param_words &&& 63) <<< 6 |||
    (translate_param_words &&& 63)

/-- IpcHeader::command_id of src/src/ipc/mod.rs; the cast to u16 in the
source is the mod 2 ^ 16. -/
def IpcHeader.command_id (h : Nat) : Nat := (h >>> 16) % 2 ^ 16

/-- IpcHeader::normal_param_words of src/src/ipc/mod.rs. -/
def IpcHeader.normal_param_words (h : Nat) : Nat := (h >>> 6) &&& 63

/-- IpcHeader::translate_param_words of src/src/ipc/mod.rs. -/
def IpcHeader.translate_param_words (h : Nat) : Nat := h &&& 63

/-- HandleTranslationType of src/src/ipc/mod.rs: Clone = 0, Move = 1. -/
inductive HandleTranslationType where
  | clone
  | move
deriving DecidableEq

/-- Discriminant of HandleTranslationType (the as u32 cast in the source). -/
def HandleTranslationType.toU32 : HandleTranslationType → Nat
  | .clone => 0
  | .move => 1

/-- TranslationDescriptor::new of src/src/ipc/mod.rs:
(((len as isize) - 1) as u32) shl 26, or-ed with the translation type
shl 4. The isize subtraction followed by the cast to u32 is two's
complement, hence (len + 2 ^ 32 - 1) mod 2 ^ 32; the u32 shift keeps the
low 32 bits. -/
def TranslationDescriptor.new (len : Nat) (t : HandleTranslationType) : Nat :=
  ((len + (U32_MOD - 1)) % U32_MOD) <<< 26 % U32_MOD ||| t.toU32 <<< 4

/-- TranslationDescriptor::len of src/src/ipc/mod.rs (bits 26 and up of the
32-bit descriptor word). The reply parser derives the handle count as this
value plus one. -/
def TranslationDescriptor.len (d : Nat) : Nat := d >>> 26

/-- TranslationDescriptor::handle_translation_type of src/src/ipc/mod.rs. -/
def TranslationDescriptor.handle_translation_type (d : Nat) : HandleTranslationType :=
  if (d >>> 4) &&& 1 = 0 then .clone else .move

/-- CommandBufferWriter::write of src/src/ipc/mod.rs. The writer holds the
words written so far; the source checks that the destination pointer is
still inside the 0x80-word window and panics otherwise (none here). -/
def CommandBufferWriter.write (words : List Nat) (arg : Nat) : Option (List Nat) :=
  if words.length < COMMAND_BUFFER_LENGTH then some (words ++ [arg]) else none

/-- ReplyBuffer of src/src/ipc/reply.rs: the start pointer becomes the
function from word offsets to buffer contents, and the read pointer the
offset pos. -/
structure ReplyBuffer where
  word : Nat → Nat
  pos : Nat

/-- ReplyBuffer::read of src/src/ipc/reply.rs: the source checks that the
read pointer lies inside the 0x80-word window
(start ≤ read_ptr < start + 0x80) and panics otherwise (none here). -/
def ReplyBuffer.read (rb : ReplyBuffer) : Option (Nat × ReplyBuffer) :=
  if rb.pos < COMMAND_BUFFER_LENGTH then
    some (rb.word rb.pos, ⟨rb.word, rb.pos + 1⟩)
  else none

/-- ReplyBuffer::read_range of src/src/ipc/reply.rs: the source checks that
both the slice start (the read pointer, at offset pos) and the slice end
pointer (at offset pos + len - 1, computed with pointer arithmetic, hence
the condition 1 ≤ pos + len for it not to fall below the window start) lie
inside the 0x80-word window, and panics otherwise (none here). -/
def ReplyBuffer.read_range (rb : ReplyBuffer) (len : Nat) : Option (List Nat × ReplyBuffer) :=
  if rb.pos < COMMAND_BUFFER_LENGTH ∧ 1 ≤ rb.pos + len ∧
      rb.pos + len ≤ COMMAND_BUFFER_LENGTH then
    some ((List.range len).map (fun i => rb.word (rb.pos + i)), ⟨rb.word, rb.pos + len⟩)
  else none

/-- Reply of src/src/ipc/reply.rs. The borrowed normal-word slice and the
translate-result slice become lists; a field is none when the source parser
leaves the corresponding Option empty. -/
structure Reply where
  command_id : Nat
  values : Option (List Nat)
  translate_values : Option (List Nat)
deriving DecidableEq

/-- Modelled from the spec: the numeric value of CommonDescription::NoData.
The enum CommonDescription is referenced by src/src/ipc/reply.rs but its
definition is not part of the sources under src/. The spec does not fix
this 10-bit description value and no claim depends on it: the synthesized
result code below is nonzero through its level and summary fields for any
10-bit description. The customary value 1007 is used. -/
def commonDescriptionNoData : Nat := 1007

/-- The ResultCode that Reply::parse_nofail of src/src/ipc/reply.rs
synthesizes when the reply header declares zero normal words. -/
def noDataResultCode : Nat :=
  ResultCode.new .info .invalidResultValue .application commonDescriptionNoData

/-- The first match block of Reply::parse_nofail of src/src/ipc/reply.rs:
on zero declared normal words the fixed non-success code is synthesized
with no values; otherwise the next word is the result code and the
remaining count - 1 words (count.wrapping_sub(1) in the source, with
count nonzero here) are the borrowed value slice. -/
def Reply.parseNormal (hdr : Nat) (b1 : ReplyBuffer) :
    Option (Nat × Option (List Nat) × ReplyBuffer) :=
  match IpcHeader.normal_param_words hdr with
  | 0 => some (noDataResultCode, (none : Option (List Nat)), b1)
  | count =>
    match b1.read with
    | none => none
    | some (rc, b) =>
      match b.read_range (count - 1) with
      | none => none
      | some (vs, b2) => some (rc, some vs, b2)

/-- The second match block of Reply::parse_nofail of src/src/ipc/reply.rs:
zero or one declared translate words yield no translate results; otherwise
the declared words are read, the first is the handle-group descriptor
(split_first, whose unwrap panics on an empty slice), the handle count is
descriptor len + 1, and that many following words are the handle slice
(the slice indexing panics when fewer are present). -/
def Reply.parseTranslate (hdr : Nat) (b2 : ReplyBuffer) :
    Option (Option (List Nat) × ReplyBuffer) :=
  match IpcHeader.translate_param_words hdr with
  | 0 => some ((none : Option (List Nat)), b2)
  | 1 => some ((none : Option (List Nat)), b2)
  | word_size =>
    match b2.read_range word_size with
    | none => none
    | some (slice, b3) =>
      match slice with
      | [] => none
      | descriptor :: body =>
        let nhandles := TranslationDescriptor.len descriptor + 1
        if nhandles ≤ body.length then some (some (body.take nhandles), b3) else none

/-- Reply::parse_nofail of src/src/ipc/reply.rs, starting from a fresh
ReplyBuffer over the given contents. Returns the parsed Reply together
with the result code; none models a panic (a bounds violation inside the
reads, the unwrap on an empty translate slice, or the slice indexing of
the handle words). -/
def Reply.parse_nofail (word : Nat → Nat) : Option (Reply × Nat) := do
  let b0 : ReplyBuffer := ⟨word, 0⟩
  let (hdr, b1) ← b0.read
  let (result_code, values, b2) ← Reply.parseNormal hdr b1
  let (translate_values, _b3) ← Reply.parseTranslate hdr b2
  some (⟨IpcHeader.command_id hdr, values, translate_values⟩, result_code)

/-- Reply::parse of src/src/ipc/reply.rs: parse_nofail followed by
ResultCode::and, which yields the reply only for the success code 0 and
the error code otherwise. -/
def Reply.parse (word : Nat → Nat) : Option (Except Nat Reply) :=
  match Reply.parse_nofail word with
  | none => none
  | some (reply, result_code) =>
      some (if result_code = 0 then .ok reply else .error result_code)

/-- Reply buffer used for the claims about a reply with zero declared
normal words: header with command id 9, no normal words, no translate
words. -/
def c1Buffer : Nat → Nat := fun i => if i = 0 then IpcHeader.new 9 0 0 else 0

/-- Reply buffer used for the claims about a non-success embedded result
code: header with command id 3 and two normal words; the embedded result
code is 5 (an error) and the remaining normal word is 42. -/
def c4Buffer : Nat → Nat := fun i =>
  if i = 0 then IpcHeader.new 3 2 0 else if i = 1 then 5 else if i = 2 then 42 else 0

/-- Reply buffer whose header declares one normal word and no translate
words, so the header-declared extent ends after word offset 1; every word
beyond the header holds the value 100 + offset. -/
def c8Buffer : Nat → Nat := fun i => if i = 0 then IpcHeader.new 1 1 0 else 100 + i

/-! ## Shared-memory address-space allocator (src/src/os/sharedmem.rs)

The query-memory syscall is modelled by an oracle env from addresses to
the QueryResult the kernel would return for the containing region (the
syscall is assumed to succeed; no claim concerns a failing query). The
possible failure of the map-memory-block and unmap-memory-block syscalls
is passed in as an Option error code. The usize arithmetic of the 32-bit
target is Nat with an explicit modulus where the source uses checked or
saturating operations. -/

/-- MemoryPermission of src/src/os/mem.rs. -/
inductive MemoryPermission where
  | none | r | w | rw | x | rx | wx | rwx | dontCare
deriving DecidableEq

/-- MemoryState of src/src/os/mem.rs. -/
inductive MemoryState where
  | free | reserved | io | staticState | code | private_ | shared
  | continuous | aliased | alias | aliasCode | locked
deriving DecidableEq

/-- QueryResult of src/src/os/mem.rs. -/
structure QueryResult where
  base_process_virtual_address : Nat
  size : Nat
  permission : MemoryPermission
  state : MemoryState
  page_flags : Nat
deriving DecidableEq

/-- SHAREDMEM_START of src/src/os/sharedmem.rs. -/
def SHAREDMEM_START : Nat := 0x10000000

/-- SHAREDMEM_END of src/src/os/sharedmem.rs. -/
def SHAREDMEM_END : Nat := 0x14000000

/-- MappedBlock of src/src/os/sharedmem.rs. -/
structure MappedBlock where
  start : Nat
  size : Nat
  handle : Nat
deriving DecidableEq

/-- Outcome of the gap search. The source loop does not terminate when the
kernel reports a region of size zero at the probe (the probe then never
advances); that behaviour is the diverge outcome. -/
inductive GapOutcome where
  | found (addr : Nat)
  | noGap
  | diverge
deriving DecidableEq

/-- Outcome of SharedMemoryMapper::map: a mapped block, or a typed error
code, or the divergence inherited from the gap search. -/
inductive MapOutcome where
  | ok (block : MappedBlock)
  | err (code : Nat)
  | diverge
deriving DecidableEq

/-- SharedMemoryMapper::remaining_free of src/src/os/sharedmem.rs: the
checked subtractions return none exactly when the probe lies below the
region base or past the region size. -/
def SharedMemoryMapper.remaining_free (block : QueryResult) (address : Nat) : Option Nat :=
  if block.base_process_virtual_address ≤ address then
    let offset_in_block := address - block.base_process_virtual_address
    if offset_in_block ≤ block.size then some (block.size - offset_in_block) else none
  else none

/-- The acceptance test inside the loop of find_gap_within: the queried
region is free and remaining_free at the probe is at least the requested
size. -/
def SharedMemoryMapper.gapAccept (env : Nat → QueryResult) (size candidate_addr : Nat) :
    Bool :=
  decide ((env candidate_addr).state = .free) &&
    (match SharedMemoryMapper.remaining_free (env candidate_addr) candidate_addr with
     | some free => decide (size ≤ free)
     | none => false)

/-- Loop body of SharedMemoryMapper::find_gap_within of
src/src/os/sharedmem.rs, with explicit fuel. The while guard is the
checked_add of probe and size compared against the window end (overflow
counts as failure of the guard). On acceptance the probe is returned;
otherwise the probe advances by the size of the queried region, a
checked_add whose overflow ends the search without a gap. A region of
size zero leaves the probe in place forever: diverge. The fuel only
bounds the recursion; find_gap_within below supplies enough of it, since
every advance is by at least one for any well-formed oracle. -/
def SharedMemoryMapper.find_gap_within_go (env : Nat → QueryResult) (size e : Nat) :
    Nat → Nat → GapOutcome
  | 0, _ => .diverge
  | fuel + 1, candidate_addr =>
    if candidate_addr + size < U32_MOD ∧ candidate_addr + size < e then
      if SharedMemoryMapper.gapAccept env size candidate_addr = true then
        .found candidate_addr
      else if candidate_addr + (env candidate_addr).size < U32_MOD then
        if (env candidate_addr).size = 0 then .diverge
        else
          SharedMemoryMapper.find_gap_within_go env size e fuel
            (candidate_addr + (env candidate_addr).size)
      else .noGap
    else .noGap

/-- SharedMemoryMapper::find_gap_within of src/src/os/sharedmem.rs. -/
def SharedMemoryMapper.find_gap_within (env : Nat → QueryResult)
    (start e size : Nat) : GapOutcome :=
  SharedMemoryMapper.find_gap_within_go env size e ((e - start) + 1) start

/-- SharedMemoryMapper::find_gap of src/src/os/sharedmem.rs: search from
the cursor to the window end, then once more from the window start up to
the cursor. -/
def SharedMemoryMapper.find_gap (env : Nat → QueryResult)
    (next_candidate size : Nat) : GapOutcome :=
  match SharedMemoryMapper.find_gap_within env next_candidate SHAREDMEM_END size with
  | .found address => .found address
  | .noGap => SharedMemoryMapper.find_gap_within env SHAREDMEM_START next_candidate size
  | .diverge => .diverge

/-- Page rounding at the top of SharedMemoryMapper::map:
(size + 0xFFF) and (not 0xFFF), on the 32-bit usize, where the addition
wraps modulo 2 ^ 32 and the complement of 0xFFF is 0xFFFFF000. -/
def roundPageSize (size : Nat) : Nat := ((size + 0xFFF) % U32_MOD) &&& 0xFFFFF000

/-- Saturating 32-bit addition (usize saturating_add). -/
def saturatingAddUsize (a b : Nat) : Nat := min (a + b) (U32_MOD - 1)

/-- ErrorCode::new(Level::Fatal, Summary::OutOfResource,
Module::Application, 1011), the typed error SharedMemoryMapper::map
returns when no gap is found. -/
def outOfResourceErrorCode : Nat := ResultCode.new .fatal .outOfResource .application 1011

/-- SharedMemoryMapper::map of src/src/os/sharedmem.rs. The state is the
next_candidate cursor, threaded explicitly; mapSvcError is the outcome of
the map-memory-block syscall (none for success). Note the source advances
the cursor, saturating and wrapping to the window start when the result
reaches the window end, before invoking the map syscall. -/
def SharedMemoryMapper.map (env : Nat → QueryResult) (mapSvcError : Option Nat)
    (next_candidate memory_handle size : Nat) : MapOutcome × Nat :=
  let size := roundPageSize size
  match SharedMemoryMapper.find_gap env next_candidate size with
  | .diverge => (.diverge, next_candidate)
  | .noGap => (.err outOfResourceErrorCode, next_candidate)
  | .found address =>
    let next := saturatingAddUsize next_candidate size
    let next_candidate' := if SHAREDMEM_END ≤ next then SHAREDMEM_START else next
    match mapSvcError with
    | some e => (.err e, next_candidate')
    | none => (.ok ⟨address, size, memory_handle⟩, next_candidate')

/-- SharedMemoryMapper::unmap of src/src/os/sharedmem.rs: on syscall
success the handle is returned and the cursor is reset to the start of
the freed block. -/
def SharedMemoryMapper.unmap (unmapSvcError : Option Nat) (next_candidate : Nat)
    (block : MappedBlock) : Except Nat Nat × Nat :=
  match unmapSvcError with
  | some e => (.error e, next_candidate)
  | none => (.ok block.handle, block.start)

/-- The sequence of probes the find_gap_within loop visits, together with
a flag marking that the loop diverges after the listed probes. This is
the reformulation of the loop used to state that the search returns the
first acceptable probe of its scan. -/
def SharedMemoryMapper.probeChainGo (env : Nat → QueryResult) (size e : Nat) :
    Nat → Nat → List Nat × Bool
  | 0, _ => ([], true)
  | fuel + 1, candidate_addr =>
    if candidate_addr + size < U32_MOD ∧ candidate_addr + size < e then
      if candidate_addr + (env candidate_addr).size < U32_MOD then
        if (env candidate_addr).size = 0 then ([candidate_addr], true)
        else
          let r := SharedMemoryMapper.probeChainGo env size e fuel
            (candidate_addr + (env candidate_addr).size)
          (candidate_addr :: r.1, r.2)
      else ([candidate_addr], false)
    else ([], false)

/-- Gap search reformulated as the first acceptable probe of the visited
probe sequence, one window at a time. -/
def SharedMemoryMapper.chainSearchWin (env : Nat → QueryResult)
    (start e size : Nat) : GapOutcome :=
  let r := SharedMemoryMapper.probeChainGo env size e ((e - start) + 1) start
  match r.1.find? (SharedMemoryMapper.gapAccept env size) with
  | some a => .found a
  | none => if r.2 then .diverge else .noGap

/-- Gap search reformulated as the first acceptable probe reachable from
the cursor, wrapping once from the window end to the window start and
continuing up to the original cursor. -/
def SharedMemoryMapper.chainSearch (env : Nat → QueryResult)
    (next_candidate size : Nat) : GapOutcome :=
  match SharedMemoryMapper.chainSearchWin env next_candidate SHAREDMEM_END size with
  | .found address => .found address
  | .noGap => SharedMemoryMapper.chainSearchWin env SHAREDMEM_START next_candidate size
  | .diverge => .diverge

/-- Definition following the words of the claim about the gap search (spec
section 4.5): scan from the cursor; if the containing region is free with a
remaining span of at least the requested size, return the probe; otherwise
advance the probe to that region end (its base plus its size); on reaching
the window upper bound, wrap once to the window base and continue up to
the original cursor. The fuel only bounds the recursion. -/
def specClaimScanGo (env : Nat → QueryResult) (size e : Nat) :
    Nat → Nat → Option Nat
  | 0, _ => none
  | fuel + 1, probe =>
    if probe < e then
      if SharedMemoryMapper.gapAccept env size probe = true then some probe
      else
        specClaimScanGo env size e fuel
          ((env probe).base_process_virtual_address + (env probe).size)
    else none

/-- The full scan of the claim: first window from the cursor to the window
end, then wrapping once from the window base up to the cursor. -/
def specClaimSearch (env : Nat → QueryResult) (next_candidate size : Nat) : Option Nat :=
  match specClaimScanGo env size SHAREDMEM_END ((SHAREDMEM_END - next_candidate) + 1)
      next_candidate with
  | some a => some a
  | none =>
      specClaimScanGo env size next_candidate ((next_candidate - SHAREDMEM_START) + 1)
        SHAREDMEM_START

/-- Memory-map oracle with an occupied page at the window start followed
by free space: the region 0x10000000..0x10001000 is reserved, the region
0x10001000..0x14000000 is free. -/
def env3 : Nat → QueryResult := fun a =>
  if a < 0x10001000 then ⟨0x10000000, 0x1000, .none, .reserved, 0⟩
  else ⟨0x10001000, 0x3FFF000, .none, .free, 0⟩

/-- Memory-map oracle with a reserved region 0x10000000..0x10002000, a
free page 0x10002000..0x10003000, and a reserved rest of the window. -/
def env6 : Nat → QueryResult := fun a =>
  if a < 0x10002000 then ⟨0x10000000, 0x2000, .none, .reserved, 0⟩
  else if a < 0x10003000 then ⟨0x10002000, 0x1000, .none, .free, 0⟩
  else ⟨0x10003000, 0x3FFD000, .none, .reserved, 0⟩

/-- Memory-map oracle whose whole window 0x10000000..0x14000000 is one
free region. -/
def envFree : Nat → QueryResult := fun _ => ⟨0x10000000, 0x4000000, .none, .free, 0⟩

/-! ## Lazy atomic handle cell (src/src/sync.rs)

AtomicHandle::get_or_init performs an acquire load; a caller observing the
closed sentinel 0 runs the init closure, which creates a fresh kernel
object (a nonzero raw handle the kernel has not handed out before, leaked
out of its owning wrapper), and then attempts a compare-exchange of the
cell from 0 to that candidate. The success arm of the match,
Ok(new_handle) yielding new_handle, is a pattern binding that shadows the
candidate: compare_exchange returns its Ok payload, the previous value of
the cell, which on success is the compared-against sentinel
CLOSED_HANDLE = 0 — so the winning caller finishes with the closed
sentinel, not with the candidate it just published. A loser immediately
closes its candidate handle and adopts the value the failed
compare-exchange observed; a caller that already observed a nonzero value
adopts it directly.

The races of N callers are modelled as an interleaving of atomic steps
over a shared state: the cell, a counter producing the fresh raw handles
(starting at 1 so every candidate is nonzero and distinct), the ghost
lists of handles created by init calls and of handles passed to
close_handle, and the per-caller program counter. Two pairs of source
actions are merged into single transitions: the zero-observing load with
the init call that follows it, and the failed compare-exchange with the
close that follows it; in the source no access to the shared cell stands
between the members of either pair, so every interleaving of the source
is an interleaving of the model. -/

/-- CLOSED_HANDLE of src/src/os/mod.rs: the reserved closed sentinel. -/
def CLOSED_HANDLE : Nat := 0

/-- Program counter of one caller of get_or_init: before the load, after
having created a candidate, or finished with a result. -/
inductive TState where
  | start
  | ready (candidate : Nat)
  | done (result : Nat)
deriving DecidableEq

/-- Shared state of the racing callers. -/
structure CellState (N : Nat) where
  cell : Nat
  fresh : Nat
  created : List Nat
  closed : List Nat
  threads : Fin N → TState

/-- Initial state of a first-use race: the cell holds the closed sentinel
CLOSED_HANDLE = 0 and every caller is about to execute its load. -/
def AtomicHandle.init (N : Nat) : CellState N :=
  ⟨CLOSED_HANDLE, 1, [], [], fun _ => .start⟩

/-- Effect of a load that observes a nonzero cell: the caller finishes
with the observed value. -/
def AtomicHandle.applyLoadObserve {N : Nat} (s : CellState N) (i : Fin N) : CellState N :=
  { s with threads := Function.update s.threads i (.done s.cell) }

/-- Effect of a load that observes the sentinel, followed by the init
call: a fresh nonzero handle is created and becomes the candidate. -/
def AtomicHandle.applyLoadCreate {N : Nat} (s : CellState N) (i : Fin N) : CellState N :=
  { s with
    threads := Function.update s.threads i (.ready s.fresh),
    fresh := s.fresh + 1,
    created := s.fresh :: s.created }

/-- Effect of a successful compare-exchange from the sentinel to the
candidate: the candidate is published, but the caller finishes with the
Ok payload of compare_exchange — the previous value of the cell, the
sentinel CLOSED_HANDLE — because the pattern binding in the success arm
of the source shadows the candidate. -/
def AtomicHandle.applyCasSuccess {N : Nat} (s : CellState N) (i : Fin N) (c : Nat) :
    CellState N :=
  { s with cell := c, threads := Function.update s.threads i (.done CLOSED_HANDLE) }

/-- Effect of a failed compare-exchange, followed by the immediate close
of the candidate: the candidate is closed and the caller finishes with
the value the compare-exchange observed. -/
def AtomicHandle.applyCasFailure {N : Nat} (s : CellState N) (i : Fin N) (c : Nat) :
    CellState N :=
  { s with
    threads := Function.update s.threads i (.done s.cell),
    closed := c :: s.closed }

/-- One atomic step of some caller of AtomicHandle::get_or_init. -/
inductive AtomicHandle.Step {N : Nat} : CellState N → CellState N → Prop where
  | loadNonzero (s : CellState N) (i : Fin N)
      (hth : s.threads i = .start) (hc : s.cell ≠ 0) :
      AtomicHandle.Step s (AtomicHandle.applyLoadObserve s i)
  | loadZeroCreate (s : CellState N) (i : Fin N)
      (hth : s.threads i = .start) (hc : s.cell = 0) :
      AtomicHandle.Step s (AtomicHandle.applyLoadCreate s i)
  | casSuccess (s : CellState N) (i : Fin N) (c : Nat)
      (hth : s.threads i = .ready c) (hc : s.cell = 0) :
      AtomicHandle.Step s (AtomicHandle.applyCasSuccess s i c)
  | casFailure (s : CellState N) (i : Fin N) (c : Nat)
      (hth : s.threads i = .ready c) (hc : s.cell ≠ 0) :
      AtomicHandle.Step s (AtomicHandle.applyCasFailure s i c)

/-- Inductive invariant of the race: candidates are distinct, nonzero and
below the fresh counter; closed handles were created, are distinct, and do
not include the published cell value; a finished caller holds either the
(nonzero) cell value or the sentinel the winning compare-exchange
reported, the sentinel being held by exactly one caller (the winner) and
only once the cell is published; a pending candidate was created, is
unclosed, is not the cell value, and differs from every other pending
candidate; and every created handle is the cell value, or closed, or
still pending with some caller. -/
structure AtomicHandle.Inv {N : Nat} (s : CellState N) : Prop where
  created_nodup : s.created.Nodup
  created_pos_lt : ∀ x ∈ s.created, 0 < x ∧ x < s.fresh
  fresh_pos : 1 ≤ s.fresh
  closed_sub : ∀ x ∈ s.closed, x ∈ s.created
  closed_nodup : s.closed.Nodup
  cell_mem : s.cell = 0 ∨ s.cell ∈ s.created
  cell_not_closed : s.cell ∉ s.closed
  done_r : ∀ j r, s.threads j = .done r → s.cell ≠ 0 ∧ (r = s.cell ∨ r = CLOSED_HANDLE)
  winner_unique : ∀ j k, s.threads j = .done CLOSED_HANDLE →
      s.threads k = .done CLOSED_HANDLE → j = k
  winner_exists : s.cell ≠ 0 → ∃ j, s.threads j = .done CLOSED_HANDLE
  ready_inv : ∀ j c, s.threads j = .ready c →
      c ∈ s.created ∧ c ∉ s.closed ∧ c ≠ s.cell ∧
      ∀ k c2, k ≠ j → s.threads k = .ready c2 → c2 ≠ c
  created_cover : ∀ x ∈ s.created,
      x = s.cell ∨ x ∈ s.closed ∨ ∃ j, s.threads j = .ready x

/-- Concrete two-caller race: both callers observe the sentinel and create
candidates 1 and 2, caller 0 wins the compare-exchange publishing
candidate 1 (and finishes with the shadowed Ok payload, the sentinel),
caller 1 loses, closes candidate 2 and adopts the published 1. -/
def raceFinal : CellState 2 :=
  AtomicHandle.applyCasFailure
    (AtomicHandle.applyCasSuccess
      (AtomicHandle.applyLoadCreate
        (AtomicHandle.applyLoadCreate (AtomicHandle.init 2) 0) 1) 0 1) 1 2

/-- Disjoint bit fields combined with a bitwise or add up: helper used to
turn the packed result code into a sum of its fields. -/
theorem shiftLeft_lor_eq_add (a b k : Nat) (hb : b < 2 ^ k) :
    a <<< k ||| b = a * 2 ^ k + b := by
  rw [Nat.shiftLeft_eq]
  calc a * 2 ^ k ||| b = 2 ^ k * a ||| b := by rw [Nat.mul_comm]
    _ = 2 ^ k * a + b := (Nat.mul_add_lt_is_or hb a).symm
    _ = a * 2 ^ k + b := by rw [Nat.mul_comm]

/-- The four fields of ResultCode::new, when in range, pack into a plain
sum with disjoint bit ranges. -/
theorem resultCode_pack_eq (a b c d : Nat)
    (hb : b < 64) (hc : c < 256) (hd : d < 1024) :
    a <<< 27 ||| b <<< 21 ||| c <<< 10 ||| (d &&& 1023) =
      a * 2 ^ 27 + b * 2 ^ 21 + c * 2 ^ 10 + d := by
  have hd1023 : d &&& 1023 = d := by
    have : d &&& 2 ^ 10 - 1 = d % 2 ^ 10 := Nat.and_pow_two_sub_one_eq_mod d 10
    simpa [Nat.mod_eq_of_lt hd] using this
  have h1 : a <<< 27 ||| b <<< 21 = a * 2 ^ 27 + b * 2 ^ 21 := by
    rw [Nat.shiftLeft_eq b]
    exact shiftLeft_lor_eq_add a (b * 2 ^ 21) 27 (by omega)
  have h2 : a * 2 ^ 27 + b * 2 ^ 21 = (a * 2 ^ 6 + b) <<< 21 := by
    rw [Nat.shiftLeft_eq]; ring
  have h3 : (a * 2 ^ 6 + b) <<< 21 ||| c <<< 10 =
      (a * 2 ^ 6 + b) * 2 ^ 21 + c * 2 ^ 10 := by
    rw [Nat.shiftLeft_eq c]
    exact shiftLeft_lor_eq_add _ (c * 2 ^ 10) 21 (by omega)
  have h4 : (a * 2 ^ 6 + b) * 2 ^ 21 + c * 2 ^ 10 =
      ((a * 2 ^ 6 + b) * 2 ^ 11 + c) <<< 10 := by
    rw [Nat.shiftLeft_eq]; ring
  have h5 : ((a * 2 ^ 6 + b) * 2 ^ 11 + c) <<< 10 ||| (d &&& 1023) =
      ((a * 2 ^ 6 + b) * 2 ^ 11 + c) * 2 ^ 10 + d := by
    rw [hd1023]
    exact shiftLeft_lor_eq_add _ d 10 (by omega)
  calc a <<< 27 ||| b <<< 21 ||| c <<< 10 ||| (d &&& 1023)
      = (a * 2 ^ 6 + b) <<< 21 ||| c <<< 10 ||| (d &&& 1023) := by rw [h1, h2]
    _ = ((a * 2 ^ 6 + b) * 2 ^ 21 + c * 2 ^ 10) ||| (d &&& 1023) := by rw [h3]
    _ = ((a * 2 ^ 6 + b) * 2 ^ 11 + c) <<< 10 ||| (d &&& 1023) := by rw [← h4]
    _ = ((a * 2 ^ 6 + b) * 2 ^ 11 + c) * 2 ^ 10 + d := h5
    _ = a * 2 ^ 27 + b * 2 ^ 21 + c * 2 ^ 10 + d := by ring

/-- Enumeration round trip for Level at codes below 32. -/
theorem level_intoU32_ofCode : ∀ n < 32, (Level.ofCode n).intoU32 = n := by decide

/-- Enumeration round trip for Summary at codes below 64. -/
theorem summary_intoU32_ofCode : ∀ n < 64, (Summary.ofCode n).intoU32 = n := by
  decide

set_option maxRecDepth 20000 in
/-- Enumeration round trip for Module at codes below 256 other than 255. -/
theorem Module.intoU8_ofU8 : ∀ n < 256, n ≠ 255 → (Module.ofU8 n).intoU8 = n := by
  decide

/-- Range of Level.intoU32. -/
theorem level_intoU32_lt (l : Level) : l.intoU32 < 32 := by
  cases l with
  | unknown code =>
      have h : code &&& 31 = code % 32 := by
        simpa using Nat.and_pow_two_sub_one_eq_mod code 5
      simp only [Level.intoU32, h]
      omega
  | _ => simp [Level.intoU32]

/-- Range of Summary.intoU32. -/
theorem summary_intoU32_lt (s : Summary) : s.intoU32 < 64 := by
  cases s with
  | unknown code =>
      have h : code &&& 63 = code % 64 := by
        simpa using Nat.and_pow_two_sub_one_eq_mod code 6
      simp only [Summary.intoU32, h]
      omega
  | _ => simp [Summary.intoU32]

/-- Field extraction from a packed result code whose fields are in range. -/
theorem resultCode_extract_eq (a b c d : Nat)
    (ha : a < 32) (hb : b < 64) (hc : c < 256) (hd : d < 1024) :
    (((a * 2 ^ 27 + b * 2 ^ 21 + c * 2 ^ 10 + d) >>> 27) &&& 31 = a) ∧
    (((a * 2 ^ 27 + b * 2 ^ 21 + c * 2 ^ 10 + d) >>> 21) &&& 63 = b) ∧
    (((a * 2 ^ 27 + b * 2 ^ 21 + c * 2 ^ 10 + d) >>> 10) &&& 255 = c) ∧
    ((a * 2 ^ 27 + b * 2 ^ 21 + c * 2 ^ 10 + d) &&& 1023 = d) := by
  have m31 : ∀ x : Nat, x &&& 31 = x % 32 := fun x => by
    simpa using Nat.and_pow_two_sub_one_eq_mod x 5
  have m63 : ∀ x : Nat, x &&& 63 = x % 64 := fun x => by
    simpa using Nat.and_pow_two_sub_one_eq_mod x 6
  have m255 : ∀ x : Nat, x &&& 255 = x % 256 := fun x => by
    simpa using Nat.and_pow_two_sub_one_eq_mod x 8
  have m1023 : ∀ x : Nat, x &&& 1023 = x % 1024 := fun x => by
    simpa using Nat.and_pow_two_sub_one_eq_mod x 10
  refine ⟨?_, ?_, ?_, ?_⟩
  · rw [Nat.shiftRight_eq_div_pow, m31]; omega
  · rw [Nat.shiftRight_eq_div_pow, m63]; omega
  · rw [Nat.shiftRight_eq_div_pow, m255]; omega
  · rw [m1023]; omega

/-- C5 (amended): for all level, summary and module codes within their
field widths with the module code distinct from 255, building a ResultCode
from the corresponding enumeration values and a 10-bit description and then
unpacking it returns the original four fields; packing the all-zero fields
yields the value 0; and 0 decodes as success. (The original claim, with no
exception for module value 255, fails: see the counterexample, which packs
module 255 alias Module.invalid as 0.) -/
theorem resultCode_roundtrip :
    (∀ nl ns nm nd : Nat, nl < 32 → ns < 64 → nm < 256 → nd < 1024 → nm ≠ 255 →
      rcLevel (ResultCode.new (Level.ofCode nl) (Summary.ofCode ns) (Module.ofU8 nm) nd) =
        Level.ofCode nl ∧
      rcSummary (ResultCode.new (Level.ofCode nl) (Summary.ofCode ns) (Module.ofU8 nm) nd) =
        Summary.ofCode ns ∧
      rcModule (ResultCode.new (Level.ofCode nl) (Summary.ofCode ns) (Module.ofU8 nm) nd) =
        Module.ofU8 nm ∧
      rcDescription (ResultCode.new (Level.ofCode nl) (Summary.ofCode ns) (Module.ofU8 nm) nd) =
        nd) ∧
    ResultCode.new .success .success .common 0 = 0 ∧
    rcIsOk 0 = true ∧ rcLevel 0 = .success := by
  refine ⟨?_, by decide, by decide, rfl⟩
  intro nl ns nm nd h1 h2 h3 h4 h5
  have e1 : (Level.ofCode nl).intoU32 = nl := level_intoU32_ofCode nl h1
  have e2 : (Summary.ofCode ns).intoU32 = ns := summary_intoU32_ofCode ns h2
  have e3 : (Module.ofU8 nm).intoU8 = nm := Module.intoU8_ofU8 nm h3 h5
  have hpack : ResultCode.new (Level.ofCode nl) (Summary.ofCode ns) (Module.ofU8 nm) nd =
      nl * 2 ^ 27 + ns * 2 ^ 21 + nm * 2 ^ 10 + nd := by
    rw [ResultCode.new, e1, e2, e3]
    exact resultCode_pack_eq nl ns nm nd h2 h3 h4
  obtain ⟨x1, x2, x3, x4⟩ := resultCode_extract_eq nl ns nm nd h1 h2 h3 h4
  refine ⟨?_, ?_, ?_, ?_⟩
  · rw [rcLevel, hpack, x1]
  · rw [rcSummary, hpack, x2]
  · rw [rcModule, hpack, x3]
  · rw [rcDescription, hpack, x4]

/-- C5 counterexample: the in-width module field value 255 does not survive
the round trip. From u8, 255 is Module.invalid, but Into u8 sends
Module.invalid to 0, so the packed code decodes its module field as
Module.common, not as the original Module.invalid. -/
theorem resultCode_roundtrip_counterexample :
    Module.ofU8 255 = Module.invalid ∧
    rcModule (ResultCode.new .success .success (Module.ofU8 255) 0) = Module.common ∧
    Module.common ≠ Module.ofU8 255 :=
  ⟨rfl, rfl, fun h => Module.noConfusion h⟩

/-- Witness for C5: the round trip evaluated at level 25, summary 3,
module 17, description 1005. -/
theorem resultCode_roundtrip_witness :
    rcLevel (ResultCode.new (Level.ofCode 25) (Summary.ofCode 3) (Module.ofU8 17) 1005) =
      Level.ofCode 25 ∧
    rcSummary (ResultCode.new (Level.ofCode 25) (Summary.ofCode 3) (Module.ofU8 17) 1005) =
      Summary.ofCode 3 ∧
    rcModule (ResultCode.new (Level.ofCode 25) (Summary.ofCode 3) (Module.ofU8 17) 1005) =
      Module.ofU8 17 ∧
    rcDescription (ResultCode.new (Level.ofCode 25) (Summary.ofCode 3) (Module.ofU8 17) 1005) =
      1005 :=
  resultCode_roundtrip.1 25 3 17 1005 (by decide) (by decide) (by decide) (by decide)
    (by decide)

/-- Bound on the translation type discriminant. -/
theorem HandleTranslationType.toU32_lt (t : HandleTranslationType) : t.toU32 < 2 := by
  cases t <;> simp [HandleTranslationType.toU32]

/-- C2: for every count in 1..64 and each translation flag (move or clone,
the latter lending a duplicate), encoding a handle-group translate
descriptor and then decoding it — the count is recovered as len plus one,
exactly as Reply::parse_nofail derives the handle count — yields back the
original count and flag. -/
theorem translationDescriptor_roundtrip (c : Nat) (hc1 : 1 ≤ c) (hc2 : c < 64)
    (t : HandleTranslationType) :
    TranslationDescriptor.len (TranslationDescriptor.new c t) + 1 = c ∧
    TranslationDescriptor.handle_translation_type (TranslationDescriptor.new c t) = t := by
  have ht : t.toU32 < 2 := HandleTranslationType.toU32_lt t
  have hval : TranslationDescriptor.new c t = (c - 1) * 2 ^ 26 + t.toU32 * 2 ^ 4 := by
    rw [TranslationDescriptor.new]
    have hmod : (c + (U32_MOD - 1)) % U32_MOD = c - 1 := by
      rw [U32_MOD]; omega
    have hsh : (c - 1) <<< 26 % U32_MOD = (c - 1) <<< 26 := by
      rw [Nat.shiftLeft_eq, U32_MOD]
      omega
    rw [hmod, hsh, Nat.shiftLeft_eq t.toU32]
    rw [shiftLeft_lor_eq_add (c - 1) (t.toU32 * 2 ^ 4) 26 (by omega)]
  constructor
  · rw [TranslationDescriptor.len, hval, Nat.shiftRight_eq_div_pow]
    omega
  · rw [TranslationDescriptor.handle_translation_type, hval]
    have hdiv : ((c - 1) * 2 ^ 26 + t.toU32 * 2 ^ 4) >>> 4 =
        (c - 1) * 2 ^ 22 + t.toU32 := by
      rw [Nat.shiftRight_eq_div_pow]
      omega
    rw [hdiv, Nat.and_one_is_mod]
    have hmod2 : ((c - 1) * 2 ^ 22 + t.toU32) % 2 = t.toU32 := by omega
    rw [hmod2]
    cases t with
    | clone => rfl
    | move => rfl

/-- Witness for C2: the round trip evaluated at count 5 with the move
flag. -/
theorem translationDescriptor_roundtrip_witness :
    TranslationDescriptor.len (TranslationDescriptor.new 5 .move) + 1 = 5 ∧
    TranslationDescriptor.handle_translation_type (TranslationDescriptor.new 5 .move) =
      .move :=
  translationDescriptor_roundtrip 5 (by decide) (by decide) .move

/-- C7: every write through the command-buffer writer at word offsets 0
through 0x7F (the offset is the number of words already written) stores
the word after the ones already present and advances the cursor by one,
and a write at offset 0x80, the first word beyond the 0x80-word window,
aborts without storing anything. -/
theorem commandBufferWriter_write_bounds (words : List Nat) (arg : Nat) :
    (words.length < 0x80 →
      CommandBufferWriter.write words arg = some (words ++ [arg])) ∧
    (words.length = 0x80 → CommandBufferWriter.write words arg = none) := by
  constructor <;> intro h <;>
    simp [CommandBufferWriter.write, COMMAND_BUFFER_LENGTH, h]

/-- Witness for C7: a write to an empty buffer succeeds and a write to a
full buffer of 0x80 words aborts. -/
theorem commandBufferWriter_write_bounds_witness :
    CommandBufferWriter.write [] 7 = some [7] ∧
    CommandBufferWriter.write (List.replicate 0x80 0) 7 = none :=
  ⟨(commandBufferWriter_write_bounds [] 7).1 (by decide),
   (commandBufferWriter_write_bounds (List.replicate 0x80 0) 7).2 (by simp)⟩

/-- Helper shared by the reply-parsing claims: Reply::parse forwards the
outcome of parse_nofail through ResultCode::and. -/
theorem reply_parse_of_parse_nofail (word : Nat → Nat) (reply : Reply) (rc : Nat)
    (h : Reply.parse_nofail word = some (reply, rc)) :
    Reply.parse word = some (if rc = 0 then .ok reply else .error rc) := by
  rw [Reply.parse, h]

/-- C1 counterexample: a reply whose header declares zero normal words is
not handled by aborting: parse_nofail succeeds (it does not return the
abort outcome none), synthesizing the fixed non-success code, and parse
returns that code as an error. -/
theorem reply_zero_normal_words_counterexample :
    IpcHeader.normal_param_words (c1Buffer 0) = 0 ∧
    Reply.parse_nofail c1Buffer = some (⟨9, none, none⟩, noDataResultCode) ∧
    Reply.parse_nofail c1Buffer ≠ none ∧
    noDataResultCode ≠ 0 ∧
    Reply.parse c1Buffer = some (.error noDataResultCode) := by
  refine ⟨by decide, by decide, by decide, by decide, rfl⟩

/-- C1 (amended): a reply whose header declares zero normal words is not
aborted on; parse_nofail continues, synthesizes the fixed non-success
ResultCode (level Info, summary InvalidResultValue, module Application)
with an empty normal-value set, and Reply::parse then returns that error,
so the caller receives no reply value. -/
theorem reply_zero_normal_words (word : Nat → Nat)
    (h : IpcHeader.normal_param_words (word 0) = 0) :
    (∀ reply rc, Reply.parse_nofail word = some (reply, rc) →
      rc = noDataResultCode ∧ rc ≠ 0 ∧ reply.values = none) ∧
    (∀ reply, Reply.parse word ≠ some (.ok reply)) := by
  have hread : (ReplyBuffer.mk word 0).read = some (word 0, ⟨word, 1⟩) := by
    simp [ReplyBuffer.read, COMMAND_BUFFER_LENGTH]
  have hmain : ∀ reply rc, Reply.parse_nofail word = some (reply, rc) →
      rc = noDataResultCode ∧ rc ≠ 0 ∧ reply.values = none := by
    intro reply rc hp
    rw [Reply.parse_nofail] at hp
    simp only [hread, Option.bind_eq_bind, Option.some_bind] at hp
    rw [Reply.parseNormal, h] at hp
    simp only [Option.some_bind] at hp
    rcases htv : Reply.parseTranslate (word 0) ⟨word, 1⟩ with _ | ⟨tv, b3⟩
    · rw [htv] at hp
      simp at hp
    · rw [htv] at hp
      simp only [Option.some_bind] at hp
      cases hp
      exact ⟨rfl, by decide, rfl⟩
  refine ⟨hmain, ?_⟩
  intro reply hp
  rcases hq : Reply.parse_nofail word with _ | ⟨r, rc⟩
  · rw [Reply.parse, hq] at hp
    cases hp
  · obtain ⟨h1, h2, _⟩ := hmain r rc hq
    rw [reply_parse_of_parse_nofail word r rc hq, if_neg h2] at hp
    cases hp

/-- Witness for C1: the amended statement evaluated on the concrete buffer
whose header declares zero normal words. -/
theorem reply_zero_normal_words_witness :
    (∀ reply rc, Reply.parse_nofail c1Buffer = some (reply, rc) →
      rc = noDataResultCode ∧ rc ≠ 0 ∧ reply.values = none) ∧
    (∀ reply, Reply.parse c1Buffer ≠ some (.ok reply)) :=
  reply_zero_normal_words c1Buffer (by decide)

/-- C4 counterexample: parsing does not short-circuit before reading the
reply values. On a reply with the non-success embedded code 5 and one
further normal word, parse_nofail reads and returns that word (values is
some, not none), refuting that no normal value is read. -/
theorem reply_error_reads_values_counterexample :
    Reply.parse_nofail c4Buffer = some (⟨3, some [42], none⟩, 5) ∧
    (5 : Nat) ≠ 0 ∧
    (some [42] : Option (List Nat)) ≠ none := by
  refine ⟨by decide, by decide, by decide⟩

/-- C4 (amended): parse_nofail reads the header-declared normal and
translate words regardless of the embedded ResultCode; the short circuit
happens afterwards, in Reply::parse, which discards the parsed reply and
returns the non-success code as the error, so the caller receives no
reply values. -/
theorem reply_error_shortCircuit (word : Nat → Nat) (reply : Reply) (rc : Nat)
    (h1 : Reply.parse_nofail word = some (reply, rc)) (h2 : rc ≠ 0) :
    Reply.parse word = some (.error rc) ∧
    (∀ r2, Reply.parse word ≠ some (.ok r2)) := by
  have hp := reply_parse_of_parse_nofail word reply rc h1
  rw [if_neg h2] at hp
  refine ⟨hp, ?_⟩
  intro r2 hc
  rw [hp] at hc
  simp at hc

/-- Witness for C4: the amended statement evaluated on the concrete buffer
with embedded error code 5. -/
theorem reply_error_shortCircuit_witness :
    Reply.parse c4Buffer = some (.error 5) ∧
    (∀ r2, Reply.parse c4Buffer ≠ some (.ok r2)) :=
  reply_error_shortCircuit c4Buffer ⟨3, some [42], none⟩ 5 (by decide) (by decide)

/-- C8 counterexample: a read past the header-declared extent does not
abort. The header of c8Buffer declares one normal word and no translate
words, so the declared extent ends after word offset 1; a ReplyBuffer read
at offset 2 nevertheless succeeds and returns the word stored there. -/
theorem replyBuffer_read_past_extent_counterexample :
    IpcHeader.normal_param_words (c8Buffer 0) = 1 ∧
    IpcHeader.translate_param_words (c8Buffer 0) = 0 ∧
    (ReplyBuffer.mk c8Buffer 2).read.map Prod.fst = some 102 ∧
    (ReplyBuffer.mk c8Buffer 2).read ≠ none := by
  refine ⟨by decide, by decide, rfl, ?_⟩
  simp [ReplyBuffer.read, COMMAND_BUFFER_LENGTH]

/-- C8 (amended): reply reads are bounds-checked against the fixed
0x80-word window, mirroring the write path: a read at an offset inside the
window succeeds and returns the stored word, and a read at or beyond
offset 0x80 aborts. The header-declared extent is not what the reader
enforces; parse_nofail merely never reads past what the header declares,
which always lies inside the window. -/
theorem replyBuffer_read_bounds (rb : ReplyBuffer) :
    (rb.pos < 0x80 → rb.read = some (rb.word rb.pos, ⟨rb.word, rb.pos + 1⟩)) ∧
    (0x80 ≤ rb.pos → rb.read = none) := by
  constructor <;> intro h <;> simp [ReplyBuffer.read, COMMAND_BUFFER_LENGTH] <;> omega

/-- Witness for C8: a read inside the window at offset 2 succeeds, a read
at offset 0x80 aborts. -/
theorem replyBuffer_read_bounds_witness :
    (ReplyBuffer.mk c8Buffer 2).read = some (c8Buffer 2, ⟨c8Buffer, 3⟩) ∧
    (ReplyBuffer.mk c8Buffer 0x80).read = none :=
  ⟨(replyBuffer_read_bounds ⟨c8Buffer, 2⟩).1 (by decide),
   (replyBuffer_read_bounds ⟨c8Buffer, 0x80⟩).2 (by decide)⟩

/-- Clearing the low 12 bits of a 32-bit value with the mask 0xFFFFF000
rounds it down to a multiple of 0x1000. -/
theorem and_high_mask_eq (x : Nat) (hx : x < 2 ^ 32) :
    x &&& 0xFFFFF000 = x / 0x1000 * 0x1000 := by
  have hmask : (0xFFFFF000 : Nat) = (2 ^ 20 - 1) <<< 12 := by decide
  have hr : x / 0x1000 * 0x1000 = (x >>> 12) <<< 12 := by
    rw [Nat.shiftRight_eq_div_pow, Nat.shiftLeft_eq]
  rw [hmask, hr]
  apply Nat.eq_of_testBit_eq
  intro i
  rw [Nat.testBit_and, Nat.testBit_shiftLeft, Nat.testBit_shiftLeft,
    Nat.testBit_shiftRight, Nat.testBit_two_pow_sub_one]
  by_cases h12 : 12 ≤ i
  · have hi : 12 + (i - 12) = i := by omega
    rw [hi]
    by_cases h32 : i < 32
    · have h20 : i - 12 < 20 := by omega
      simp [h12, h20]
    · have h20 : ¬ (i - 12 < 20) := by omega
      have hxb : x.testBit i = false :=
        Nat.testBit_lt_two_pow
          (lt_of_lt_of_le hx (Nat.pow_le_pow_right (by omega) (by omega)))
      simp [h12, h20, hxb]
  · simp [h12]

/-- Characterization of the page rounding for sizes that do not overflow
the 32-bit addition. -/
theorem roundPageSize_eq (s : Nat) (hs : s ≤ 0xFFFFF000) :
    roundPageSize s = (s + 0xFFF) / 0x1000 * 0x1000 := by
  rw [roundPageSize]
  have hlt : s + 0xFFF < U32_MOD := by rw [U32_MOD]; omega
  rw [U32_MOD] at hlt ⊢
  rw [Nat.mod_eq_of_lt hlt]
  exact and_high_mask_eq (s + 0xFFF) hlt

/-- Unfolding equation for SharedMemoryMapper.map with the let bindings
inlined. -/
theorem map_eq (env : Nat → QueryResult) (m : Option Nat) (nc h s : Nat) :
    SharedMemoryMapper.map env m nc h s =
      (match SharedMemoryMapper.find_gap env nc (roundPageSize s) with
       | .diverge => (.diverge, nc)
       | .noGap => (.err outOfResourceErrorCode, nc)
       | .found address =>
         let next := saturatingAddUsize nc (roundPageSize s)
         let nc' := if SHAREDMEM_END ≤ next then SHAREDMEM_START else next
         match m with
         | some e => (.err e, nc')
         | none => (.ok ⟨address, roundPageSize s, h⟩, nc')) := rfl

/-- Inversion of a successful SharedMemoryMapper::map: the address comes
from find_gap at the page-rounded size, the returned block carries the
rounded size and the handle, and the cursor advances from the previous
cursor by the rounded size (saturating, wrapping to the window start when
the window end is reached). -/
theorem map_ok_inv (env : Nat → QueryResult) (mapSvcError : Option Nat)
    (next_candidate memory_handle size : Nat) (block : MappedBlock) (c' : Nat)
    (h : SharedMemoryMapper.map env mapSvcError next_candidate memory_handle size =
      (.ok block, c')) :
    SharedMemoryMapper.find_gap env next_candidate (roundPageSize size) =
      .found block.start ∧
    block.size = roundPageSize size ∧
    block.handle = memory_handle ∧
    mapSvcError = none ∧
    c' = (if SHAREDMEM_END ≤ saturatingAddUsize next_candidate (roundPageSize size)
          then SHAREDMEM_START else saturatingAddUsize next_candidate (roundPageSize size)) := by
  rw [map_eq] at h
  rcases hfg : SharedMemoryMapper.find_gap env next_candidate (roundPageSize size) with
    a | _ | _ <;> rw [hfg] at h
  · rcases mapSvcError with _ | e
    · simp only [Prod.mk.injEq, MapOutcome.ok.injEq] at h
      obtain ⟨hb, hc⟩ := h
      subst hb
      exact ⟨rfl, rfl, rfl, rfl, hc.symm⟩
    · simp at h
  · simp at h
  · simp at h

/-- C3 counterexample: a successful map whose returned address is not the
previous cursor leaves the cursor different from address plus size. With
oracle env3 the cursor 0x10000000 points at a reserved page, the gap
search returns 0x10001000, and the new cursor is the old cursor plus
0x1000, namely 0x10001000, not 0x10001000 + 0x1000. -/
theorem sharedMemoryMapper_cursor_counterexample :
    SharedMemoryMapper.map env3 none 0x10000000 7 0x1000 =
      (.ok ⟨0x10001000, 0x1000, 7⟩, 0x10001000) ∧
    (SharedMemoryMapper.map env3 none 0x10000000 7 0x1000).2 ≠ 0x10001000 + 0x1000 := by
  exact ⟨by decide, by decide⟩

/-- C3 (amended): after a successful map the cursor equals the previous
cursor plus the page-rounded size (saturating, and wrapping to the window
start when the sum reaches the window end); this equals address plus size
exactly when the returned address is the previous cursor itself and no
wrap occurs. After a successful unmap the cursor equals the freed block
start. -/
theorem sharedMemoryMapper_cursor_update :
    (∀ env next_candidate memory_handle size block c',
      SharedMemoryMapper.map env none next_candidate memory_handle size =
        (.ok block, c') →
      c' = (if SHAREDMEM_END ≤ saturatingAddUsize next_candidate (roundPageSize size)
            then SHAREDMEM_START
            else saturatingAddUsize next_candidate (roundPageSize size)) ∧
      (block.start = next_candidate →
        next_candidate + roundPageSize size < SHAREDMEM_END →
        c' = block.start + roundPageSize size)) ∧
    (∀ next_candidate block,
      SharedMemoryMapper.unmap none next_candidate block =
        (.ok block.handle, block.start)) := by
  constructor
  · intro env nc h s block c' hmap
    obtain ⟨hfg, hsz, hh, _, hc⟩ := map_ok_inv env none nc h s block c' hmap
    refine ⟨hc, ?_⟩
    intro hbs hlt
    have hsat : saturatingAddUsize nc (roundPageSize s) = nc + roundPageSize s := by
      simp only [saturatingAddUsize, U32_MOD]
      simp only [SHAREDMEM_END] at hlt
      omega
    rw [hc, hsat, if_neg (by omega), hbs]
  · intro nc block
    rfl

/-- Witness for C3: the cursor update evaluated on the oracle env3 with
cursor 0x10000000 and size 0x1000, and an unmap of a concrete block. -/
theorem sharedMemoryMapper_cursor_update_witness :
    ((0x10001000 : Nat) =
      (if SHAREDMEM_END ≤ saturatingAddUsize 0x10000000 (roundPageSize 0x1000)
       then SHAREDMEM_START
       else saturatingAddUsize 0x10000000 (roundPageSize 0x1000)) ∧
      ((MappedBlock.mk 0x10001000 0x1000 7).start = 0x10000000 →
        0x10000000 + roundPageSize 0x1000 < SHAREDMEM_END →
        (0x10001000 : Nat) = (MappedBlock.mk 0x10001000 0x1000 7).start +
          roundPageSize 0x1000)) ∧
    SharedMemoryMapper.unmap none 5 ⟨0x10001000, 0x1000, 7⟩ = (.ok 7, 0x10001000) :=
  ⟨sharedMemoryMapper_cursor_update.1 env3 0x10000000 7 0x1000
      ⟨0x10001000, 0x1000, 7⟩ 0x10001000 (by decide),
   sharedMemoryMapper_cursor_update.2 5 ⟨0x10001000, 0x1000, 7⟩⟩

/-- The loop of find_gap_within returns exactly the first probe of its
visited probe sequence that passes the acceptance test; when none does,
it diverges or reports no gap according to the chain flag. -/
theorem find_gap_within_go_eq_chain (env : Nat → QueryResult) (size e : Nat) :
    ∀ fuel candidate_addr,
      SharedMemoryMapper.find_gap_within_go env size e fuel candidate_addr =
        (match (SharedMemoryMapper.probeChainGo env size e fuel candidate_addr).1.find?
            (SharedMemoryMapper.gapAccept env size) with
         | some a => .found a
         | none =>
             if (SharedMemoryMapper.probeChainGo env size e fuel candidate_addr).2
             then .diverge else .noGap) := by
  intro fuel
  induction fuel with
  | zero => intro cand; rfl
  | succ n ih =>
      intro cand
      rw [SharedMemoryMapper.find_gap_within_go, SharedMemoryMapper.probeChainGo]
      by_cases hg : cand + size < U32_MOD ∧ cand + size < e
      · rw [if_pos hg, if_pos hg]
        rcases hacc : SharedMemoryMapper.gapAccept env size cand with _ | _
        · rw [if_neg (by simp [hacc])]
          by_cases hov : cand + (env cand).size < U32_MOD
          · rw [if_pos hov, if_pos hov]
            by_cases h0 : (env cand).size = 0
            · rw [if_pos h0, if_pos h0]
              simp [List.find?, hacc]
            · rw [if_neg h0, if_neg h0]
              rw [ih (cand + (env cand).size)]
              simp [List.find?, hacc]
          · rw [if_neg hov, if_neg hov]
            simp [List.find?, hacc]
        · rw [if_pos (by simp [hacc])]
          by_cases hov : cand + (env cand).size < U32_MOD
          · rw [if_pos hov]
            by_cases h0 : (env cand).size = 0
            · rw [if_pos h0]
              simp [List.find?, hacc]
            · rw [if_neg h0]
              simp [List.find?, hacc]
          · rw [if_neg hov]
            simp [List.find?, hacc]
      · rw [if_neg hg, if_neg hg]
        rfl

/-- One window of the gap search equals the first-acceptable-probe
reformulation of that window. -/
theorem find_gap_within_eq_chainWin (env : Nat → QueryResult) (start e size : Nat) :
    SharedMemoryMapper.find_gap_within env start e size =
      SharedMemoryMapper.chainSearchWin env start e size := by
  rw [SharedMemoryMapper.find_gap_within, SharedMemoryMapper.chainSearchWin]
  exact find_gap_within_go_eq_chain env size e ((e - start) + 1) start

/-- The full gap search equals the first-acceptable-probe search over both
windows. -/
theorem find_gap_eq_chainSearch (env : Nat → QueryResult) (next_candidate size : Nat) :
    SharedMemoryMapper.find_gap env next_candidate size =
      SharedMemoryMapper.chainSearch env next_candidate size := by
  rw [SharedMemoryMapper.find_gap, SharedMemoryMapper.chainSearch,
    find_gap_within_eq_chainWin, find_gap_within_eq_chainWin]

/-- C6 counterexample: the gap search does not advance the probe to the
region end the claim describes; it advances by the size of the queried
region from the probe itself. With oracle env6 and the cursor in the
middle of a reserved region, the scan the claim describes reaches the
free page at 0x10002000 (which is acceptable: free with span 0x1000),
while the implemented search overshoots it, exhausts both windows, finds
no gap, and map returns the typed out-of-resource error although a gap
reachable by the claimed scan exists. -/
theorem find_gap_spec_scan_counterexample :
    SharedMemoryMapper.find_gap env6 0x10001000 0x1000 = .noGap ∧
    specClaimSearch env6 0x10001000 0x1000 = some 0x10002000 ∧
    SharedMemoryMapper.gapAccept env6 0x1000 0x10002000 = true ∧
    SharedMemoryMapper.map env6 none 0x10001000 7 0x1000 =
      (.err outOfResourceErrorCode, 0x10001000) := by
  exact ⟨by decide, by decide, by decide, by decide⟩

/-- C6 (amended): the gap search returns the first probe of the scan that
starts at the cursor and advances, at each unacceptable probe, by the
size of the region the query-memory oracle reports there (the region end
only when the probe sits at the region base), a probe being tested only
while probe + size lies strictly inside the window, wrapping once from
the window upper bound to the window base and continuing up to the
original cursor; a probe is acceptable when its region is free and the
remaining span from the probe to the region end is at least the
requested size. When the search finds no gap, map returns the typed
out-of-resource error code rather than aborting. -/
theorem find_gap_first_acceptable (env : Nat → QueryResult)
    (next_candidate size : Nat) :
    SharedMemoryMapper.find_gap env next_candidate size =
      SharedMemoryMapper.chainSearch env next_candidate size ∧
    (∀ memory_handle,
      SharedMemoryMapper.find_gap env next_candidate (roundPageSize size) = .noGap →
      SharedMemoryMapper.map env none next_candidate memory_handle size =
        (.err outOfResourceErrorCode, next_candidate)) := by
  refine ⟨find_gap_eq_chainSearch env next_candidate size, ?_⟩
  intro memory_handle hfg
  rw [map_eq, hfg]

/-- Witness for C6: the equivalence and the typed-error clause evaluated
on the oracle env6, where the search finds no gap. -/
theorem find_gap_first_acceptable_witness :
    SharedMemoryMapper.find_gap env6 0x10001000 0x1000 =
      SharedMemoryMapper.chainSearch env6 0x10001000 0x1000 ∧
    SharedMemoryMapper.map env6 none 0x10001000 7 0x1000 =
      (.err outOfResourceErrorCode, 0x10001000) :=
  ⟨(find_gap_first_acceptable env6 0x10001000 0x1000).1,
   (find_gap_first_acceptable env6 0x10001000 0x1000).2 7 (by decide)⟩

/-- C10 counterexample: for the requested size 0xFFFFFFFF the page
rounding wraps modulo 2 ^ 32 and yields 0, which is not a rounding up;
map then succeeds with a zero-sized block. -/
theorem map_rounds_size_counterexample :
    roundPageSize 0xFFFFFFFF = 0 ∧
    ¬ (0xFFFFFFFF ≤ roundPageSize 0xFFFFFFFF) ∧
    SharedMemoryMapper.map envFree none 0x10000000 7 0xFFFFFFFF =
      (.ok ⟨0x10000000, 0, 7⟩, 0x10000000) := by
  exact ⟨by decide, by decide, by decide⟩

/-- C10 (amended): for every requested size up to 0xFFFFF000 (so that the
32-bit rounding computation does not wrap), map first rounds the size up
to the next multiple of 0x1000 and uses the rounded size for the gap
search and the cursor update; the returned MappedBlock carries the
rounded size, not the requested size. -/
theorem map_rounds_size (s : Nat) (hs : s ≤ 0xFFFFF000) :
    (roundPageSize s % 0x1000 = 0 ∧ s ≤ roundPageSize s ∧
      roundPageSize s < s + 0x1000) ∧
    (∀ env next_candidate memory_handle block c',
      SharedMemoryMapper.map env none next_candidate memory_handle s =
        (.ok block, c') →
      block.size = roundPageSize s ∧
      SharedMemoryMapper.find_gap env next_candidate (roundPageSize s) =
        .found block.start ∧
      c' = (if SHAREDMEM_END ≤ saturatingAddUsize next_candidate (roundPageSize s)
            then SHAREDMEM_START
            else saturatingAddUsize next_candidate (roundPageSize s))) := by
  constructor
  · rw [roundPageSize_eq s hs]
    omega
  · intro env nc h block c' hmap
    obtain ⟨hfg, hsz, hh, _, hc⟩ := map_ok_inv env none nc h s block c' hmap
    exact ⟨hsz, hfg, hc⟩

/-- Witness for C10: the rounding and the mapped-block properties
evaluated at the requested size 0x1800 on the all-free oracle. -/
theorem map_rounds_size_witness :
    (roundPageSize 0x1800 % 0x1000 = 0 ∧ (0x1800 : Nat) ≤ roundPageSize 0x1800 ∧
      roundPageSize 0x1800 < 0x1800 + 0x1000) ∧
    ((MappedBlock.mk 0x10000000 0x2000 7).size = roundPageSize 0x1800 ∧
      SharedMemoryMapper.find_gap envFree 0x10000000 (roundPageSize 0x1800) =
        .found (MappedBlock.mk 0x10000000 0x2000 7).start ∧
      (0x10002000 : Nat) =
        (if SHAREDMEM_END ≤ saturatingAddUsize 0x10000000 (roundPageSize 0x1800)
         then SHAREDMEM_START
         else saturatingAddUsize 0x10000000 (roundPageSize 0x1800))) :=
  ⟨(map_rounds_size 0x1800 (by decide)).1,
   (map_rounds_size 0x1800 (by decide)).2 envFree 0x10000000 7
     ⟨0x10000000, 0x2000, 7⟩ 0x10002000 (by decide)⟩

/-- Invariant preservation for a load that observes a nonzero cell. -/
theorem AtomicHandle.inv_loadObserve {N : Nat} (s : CellState N) (i : Fin N)
    (hth : s.threads i = .start) (hc : s.cell ≠ 0) (hinv : AtomicHandle.Inv s) :
    AtomicHandle.Inv (AtomicHandle.applyLoadObserve s i) := by
  refine { created_nodup := hinv.created_nodup, created_pos_lt := hinv.created_pos_lt,
           fresh_pos := hinv.fresh_pos, closed_sub := hinv.closed_sub,
           closed_nodup := hinv.closed_nodup, cell_mem := hinv.cell_mem,
           cell_not_closed := hinv.cell_not_closed,
           done_r := ?_, winner_unique := ?_, winner_exists := ?_,
           ready_inv := ?_, created_cover := ?_ }
  · intro j r hj
    simp only [AtomicHandle.applyLoadObserve] at hj
    by_cases hji : j = i
    · subst hji
      rw [Function.update_same] at hj
      injection hj with hr
      exact ⟨hc, Or.inl hr.symm⟩
    · rw [Function.update_noteq hji] at hj
      exact hinv.done_r j r hj
  · intro j k hj hk
    simp only [AtomicHandle.applyLoadObserve] at hj hk
    have hne : ∀ m, Function.update s.threads i (TState.done s.cell) m =
        .done CLOSED_HANDLE → s.threads m = .done CLOSED_HANDLE := by
      intro m hm
      by_cases hmi : m = i
      · subst hmi
        rw [Function.update_same] at hm
        injection hm with h0
        exact absurd h0 hc
      · rw [Function.update_noteq hmi] at hm
        exact hm
    exact hinv.winner_unique j k (hne j hj) (hne k hk)
  · intro hcne
    obtain ⟨j, hj⟩ := hinv.winner_exists hcne
    have hji : j ≠ i := by
      intro h
      subst h
      rw [hth] at hj
      cases hj
    refine ⟨j, ?_⟩
    simp only [AtomicHandle.applyLoadObserve]
    rw [Function.update_noteq hji]
    exact hj
  · intro j c hj
    simp only [AtomicHandle.applyLoadObserve] at hj
    by_cases hji : j = i
    · subst hji
      rw [Function.update_same] at hj
      cases hj
    · rw [Function.update_noteq hji] at hj
      obtain ⟨h1, h2, h3, h4⟩ := hinv.ready_inv j c hj
      refine ⟨h1, h2, h3, ?_⟩
      intro k c2 hkj hk
      simp only [AtomicHandle.applyLoadObserve] at hk
      by_cases hki : k = i
      · subst hki
        rw [Function.update_same] at hk
        cases hk
      · rw [Function.update_noteq hki] at hk
        exact h4 k c2 hkj hk
  · intro x hx
    rcases hinv.created_cover x hx with h | h | ⟨j, hj⟩
    · exact Or.inl h
    · exact Or.inr (Or.inl h)
    · refine Or.inr (Or.inr ⟨j, ?_⟩)
      simp only [AtomicHandle.applyLoadObserve]
      have hji : j ≠ i := by
        intro hji
        subst hji
        rw [hth] at hj
        cases hj
      rw [Function.update_noteq hji]
      exact hj

/-- Invariant preservation for a load that observes the sentinel and
creates a fresh candidate. -/
theorem AtomicHandle.inv_loadCreate {N : Nat} (s : CellState N) (i : Fin N)
    (hth : s.threads i = .start) (hc : s.cell = 0) (hinv : AtomicHandle.Inv s) :
    AtomicHandle.Inv (AtomicHandle.applyLoadCreate s i) := by
  have hfresh_pos : 1 ≤ s.fresh := hinv.fresh_pos
  have hfresh_notin : s.fresh ∉ s.created := fun hmem =>
    absurd (hinv.created_pos_lt s.fresh hmem).2 (lt_irrefl _)
  have hfresh_notclosed : s.fresh ∉ s.closed := fun hmem =>
    hfresh_notin (hinv.closed_sub s.fresh hmem)
  refine { created_nodup := List.nodup_cons.mpr ⟨hfresh_notin, hinv.created_nodup⟩,
           created_pos_lt := ?_,
           fresh_pos := by simp only [AtomicHandle.applyLoadCreate]; omega,
           closed_sub := fun x hx => List.mem_cons_of_mem _ (hinv.closed_sub x hx),
           closed_nodup := hinv.closed_nodup, cell_mem := Or.inl hc,
           cell_not_closed := hinv.cell_not_closed,
           done_r := ?_, winner_unique := ?_, winner_exists := ?_,
           ready_inv := ?_, created_cover := ?_ }
  · intro x hx
    simp only [AtomicHandle.applyLoadCreate] at hx ⊢
    rcases List.mem_cons.mp hx with h | h
    · subst h
      omega
    · have := hinv.created_pos_lt x h
      omega
  · intro j r hj
    simp only [AtomicHandle.applyLoadCreate] at hj
    by_cases hji : j = i
    · subst hji
      rw [Function.update_same] at hj
      cases hj
    · rw [Function.update_noteq hji] at hj
      exact absurd hc (hinv.done_r j r hj).1
  · intro j k hj hk
    exfalso
    simp only [AtomicHandle.applyLoadCreate] at hj
    by_cases hji : j = i
    · subst hji
      rw [Function.update_same] at hj
      cases hj
    · rw [Function.update_noteq hji] at hj
      exact (hinv.done_r j CLOSED_HANDLE hj).1 hc
  · intro hcne
    exact absurd hc hcne
  · intro j c hj
    simp only [AtomicHandle.applyLoadCreate] at hj ⊢
    by_cases hji : j = i
    · subst hji
      rw [Function.update_same] at hj
      injection hj with hcand
      subst hcand
      refine ⟨List.mem_cons_self _ _, hfresh_notclosed, by omega, ?_⟩
      intro k c2 hki hk
      by_cases hki2 : k = j
      · exact absurd hki2 hki
      · rw [Function.update_noteq hki2] at hk
        have := (hinv.created_pos_lt c2 (hinv.ready_inv k c2 hk).1).2
        omega
    · rw [Function.update_noteq hji] at hj
      obtain ⟨h1, h2, h3, h4⟩ := hinv.ready_inv j c hj
      refine ⟨List.mem_cons_of_mem _ h1, h2, h3, ?_⟩
      intro k c2 hkj hk
      by_cases hki : k = i
      · subst hki
        rw [Function.update_same] at hk
        injection hk with hc2
        subst hc2
        have := (hinv.created_pos_lt c h1).2
        omega
      · rw [Function.update_noteq hki] at hk
        exact h4 k c2 hkj hk
  · intro x hx
    rcases List.mem_cons.mp hx with h | h
    · subst h
      refine Or.inr (Or.inr ⟨i, ?_⟩)
      simp only [AtomicHandle.applyLoadCreate]
      rw [Function.update_same]
    · rcases hinv.created_cover x h with h2 | h2 | ⟨j, hj⟩
      · exact Or.inl h2
      · exact Or.inr (Or.inl h2)
      · refine Or.inr (Or.inr ⟨j, ?_⟩)
        simp only [AtomicHandle.applyLoadCreate]
        have hji : j ≠ i := by
          intro hji
          subst hji
          rw [hth] at hj
          cases hj
        rw [Function.update_noteq hji]
        exact hj

/-- Invariant preservation for a successful compare-exchange. -/
theorem AtomicHandle.inv_casSuccess {N : Nat} (s : CellState N) (i : Fin N) (c : Nat)
    (hth : s.threads i = .ready c) (hc : s.cell = 0) (hinv : AtomicHandle.Inv s) :
    AtomicHandle.Inv (AtomicHandle.applyCasSuccess s i c) := by
  obtain ⟨hcin, hcnotcl, hcneq, hdist⟩ := hinv.ready_inv i c hth
  have hcpos : 0 < c := (hinv.created_pos_lt c hcin).1
  refine { created_nodup := hinv.created_nodup, created_pos_lt := hinv.created_pos_lt,
           fresh_pos := hinv.fresh_pos, closed_sub := hinv.closed_sub,
           closed_nodup := hinv.closed_nodup, cell_mem := Or.inr hcin,
           cell_not_closed := hcnotcl,
           done_r := ?_, winner_unique := ?_, winner_exists := ?_,
           ready_inv := ?_, created_cover := ?_ }
  · intro j r hj
    simp only [AtomicHandle.applyCasSuccess] at hj
    by_cases hji : j = i
    · subst hji
      rw [Function.update_same] at hj
      injection hj with hr
      refine ⟨?_, Or.inr hr.symm⟩
      simp only [AtomicHandle.applyCasSuccess]
      omega
    · rw [Function.update_noteq hji] at hj
      exact absurd hc (hinv.done_r j r hj).1
  · have honly : ∀ m, (AtomicHandle.applyCasSuccess s i c).threads m =
        .done CLOSED_HANDLE → m = i := by
      intro m hm
      simp only [AtomicHandle.applyCasSuccess] at hm
      by_cases hmi : m = i
      · exact hmi
      · rw [Function.update_noteq hmi] at hm
        exact absurd hc (hinv.done_r m CLOSED_HANDLE hm).1
    intro j k hj hk
    rw [honly j hj, honly k hk]
  · intro _
    refine ⟨i, ?_⟩
    simp only [AtomicHandle.applyCasSuccess]
    rw [Function.update_same]
  · intro j c2 hj
    simp only [AtomicHandle.applyCasSuccess] at hj
    by_cases hji : j = i
    · subst hji
      rw [Function.update_same] at hj
      cases hj
    · rw [Function.update_noteq hji] at hj
      obtain ⟨k1, k2, k3, k4⟩ := hinv.ready_inv j c2 hj
      refine ⟨k1, k2, hdist j c2 hji hj, ?_⟩
      intro k c3 hkj hk
      simp only [AtomicHandle.applyCasSuccess] at hk
      by_cases hki : k = i
      · subst hki
        rw [Function.update_same] at hk
        cases hk
      · rw [Function.update_noteq hki] at hk
        exact k4 k c3 hkj hk
  · intro x hx
    rcases hinv.created_cover x hx with h | h | ⟨j, hj⟩
    · have := (hinv.created_pos_lt x hx).1
      rw [h, hc] at this
      omega
    · exact Or.inr (Or.inl h)
    · by_cases hji : j = i
      · subst hji
        rw [hth] at hj
        injection hj with hx2
        exact Or.inl hx2.symm
      · refine Or.inr (Or.inr ⟨j, ?_⟩)
        simp only [AtomicHandle.applyCasSuccess]
        rw [Function.update_noteq hji]
        exact hj

/-- Invariant preservation for a failed compare-exchange followed by the
close of the losing candidate. -/
theorem AtomicHandle.inv_casFailure {N : Nat} (s : CellState N) (i : Fin N) (c : Nat)
    (hth : s.threads i = .ready c) (hc : s.cell ≠ 0) (hinv : AtomicHandle.Inv s) :
    AtomicHandle.Inv (AtomicHandle.applyCasFailure s i c) := by
  obtain ⟨hcin, hcnotcl, hcneq, hdist⟩ := hinv.ready_inv i c hth
  refine { created_nodup := hinv.created_nodup, created_pos_lt := hinv.created_pos_lt,
           fresh_pos := hinv.fresh_pos, closed_sub := ?_,
           closed_nodup := List.nodup_cons.mpr ⟨hcnotcl, hinv.closed_nodup⟩,
           cell_mem := hinv.cell_mem, cell_not_closed := ?_,
           done_r := ?_, winner_unique := ?_, winner_exists := ?_,
           ready_inv := ?_, created_cover := ?_ }
  · intro x hx
    rcases List.mem_cons.mp hx with h | h
    · subst h
      exact hcin
    · exact hinv.closed_sub x h
  · intro hm
    rcases List.mem_cons.mp hm with h | h
    · exact hcneq h.symm
    · exact hinv.cell_not_closed h
  · intro j r hj
    simp only [AtomicHandle.applyCasFailure] at hj
    by_cases hji : j = i
    · subst hji
      rw [Function.update_same] at hj
      injection hj with hr
      exact ⟨hc, Or.inl hr.symm⟩
    · rw [Function.update_noteq hji] at hj
      exact hinv.done_r j r hj
  · intro j k hj hk
    simp only [AtomicHandle.applyCasFailure] at hj hk
    have hne : ∀ m, Function.update s.threads i (TState.done s.cell) m =
        .done CLOSED_HANDLE → s.threads m = .done CLOSED_HANDLE := by
      intro m hm
      by_cases hmi : m = i
      · subst hmi
        rw [Function.update_same] at hm
        injection hm with h0
        exact absurd h0 hc
      · rw [Function.update_noteq hmi] at hm
        exact hm
    exact hinv.winner_unique j k (hne j hj) (hne k hk)
  · intro hcne
    obtain ⟨j, hj⟩ := hinv.winner_exists hcne
    have hji : j ≠ i := by
      intro h
      subst h
      rw [hth] at hj
      cases hj
    refine ⟨j, ?_⟩
    simp only [AtomicHandle.applyCasFailure]
    rw [Function.update_noteq hji]
    exact hj
  · intro j c2 hj
    simp only [AtomicHandle.applyCasFailure] at hj
    by_cases hji : j = i
    · subst hji
      rw [Function.update_same] at hj
      cases hj
    · rw [Function.update_noteq hji] at hj
      obtain ⟨k1, k2, k3, k4⟩ := hinv.ready_inv j c2 hj
      refine ⟨k1, ?_, k3, ?_⟩
      · intro hm
        rcases List.mem_cons.mp hm with h | h
        · exact hdist j c2 hji hj h
        · exact k2 h
      · intro k c3 hkj hk
        simp only [AtomicHandle.applyCasFailure] at hk
        by_cases hki : k = i
        · subst hki
          rw [Function.update_same] at hk
          cases hk
        · rw [Function.update_noteq hki] at hk
          exact k4 k c3 hkj hk
  · intro x hx
    rcases hinv.created_cover x hx with h | h | ⟨j, hj⟩
    · exact Or.inl h
    · exact Or.inr (Or.inl (List.mem_cons_of_mem _ h))
    · by_cases hji : j = i
      · subst hji
        rw [hth] at hj
        injection hj with hx2
        subst hx2
        exact Or.inr (Or.inl (List.mem_cons_self _ _))
      · refine Or.inr (Or.inr ⟨j, ?_⟩)
        simp only [AtomicHandle.applyCasFailure]
        rw [Function.update_noteq hji]
        exact hj

/-- The invariant holds initially. -/
theorem AtomicHandle.inv_init (N : Nat) : AtomicHandle.Inv (AtomicHandle.init N) := by
  refine { created_nodup := List.nodup_nil, created_pos_lt := ?_,
           fresh_pos := le_refl 1, closed_sub := ?_,
           closed_nodup := List.nodup_nil, cell_mem := Or.inl rfl,
           cell_not_closed := ?_, done_r := ?_, winner_unique := ?_,
           winner_exists := ?_, ready_inv := ?_, created_cover := ?_ }
  · intro x hx
    simp only [AtomicHandle.init] at hx
    cases hx
  · intro x hx
    simp only [AtomicHandle.init] at hx
    cases hx
  · intro hm
    simp only [AtomicHandle.init] at hm
    cases hm
  · intro j r hj
    simp only [AtomicHandle.init] at hj
    cases hj
  · intro j k hj hk
    simp only [AtomicHandle.init] at hj
    cases hj
  · intro hne
    exact absurd rfl hne
  · intro j c hj
    simp only [AtomicHandle.init] at hj
    cases hj
  · intro x hx
    simp only [AtomicHandle.init] at hx
    cases hx

/-- Each step preserves the invariant. -/
theorem AtomicHandle.step_inv {N : Nat} {s t : CellState N}
    (hstep : AtomicHandle.Step s t) (hinv : AtomicHandle.Inv s) :
    AtomicHandle.Inv t := by
  cases hstep with
  | loadNonzero i hth hc => exact AtomicHandle.inv_loadObserve s i hth hc hinv
  | loadZeroCreate i hth hc => exact AtomicHandle.inv_loadCreate s i hth hc hinv
  | casSuccess i c hth hc => exact AtomicHandle.inv_casSuccess s i c hth hc hinv
  | casFailure i c hth hc => exact AtomicHandle.inv_casFailure s i c hth hc hinv

/-- The invariant holds in every reachable state of a first-use race. -/
theorem AtomicHandle.inv_reachable {N : Nat} {s : CellState N}
    (h : Relation.ReflTransGen AtomicHandle.Step (AtomicHandle.init N) s) :
    AtomicHandle.Inv s := by
  induction h with
  | refl => exact AtomicHandle.inv_init N
  | tail hab hbc ih => exact AtomicHandle.step_inv hbc ih

/-- General behaviour of the races on the faithful model: in every
reachable state in which all N callers have finished, a single nonzero
winner value w sits in the cell, every caller observes either w or the
closed sentinel, exactly one caller (the compare-exchange winner, whose
success arm rebinds the candidate to the reported previous value) holds
the sentinel, and the handles created by the init calls are exactly w
together with the closed ones — one kernel object survives, no handle is
leaked or closed twice. -/
theorem atomicHandle_race_lifecycle (N : Nat) (hN : 0 < N) (s : CellState N)
    (hreach : Relation.ReflTransGen AtomicHandle.Step (AtomicHandle.init N) s)
    (hdone : ∀ i : Fin N, ∃ r, s.threads i = .done r) :
    ∃ w, w ≠ 0 ∧ s.cell = w ∧
      (∀ i : Fin N, s.threads i = .done w ∨ s.threads i = .done CLOSED_HANDLE) ∧
      (∃ i, s.threads i = .done CLOSED_HANDLE) ∧
      (∀ i j, s.threads i = .done CLOSED_HANDLE →
        s.threads j = .done CLOSED_HANDLE → i = j) ∧
      (∀ x, x ∈ s.created ↔ (x = w ∨ x ∈ s.closed)) ∧
      w ∉ s.closed ∧ s.closed.Nodup ∧ s.created.Nodup := by
  have hinv := AtomicHandle.inv_reachable hreach
  obtain ⟨r0, hr0⟩ := hdone ⟨0, hN⟩
  have hcne := (hinv.done_r ⟨0, hN⟩ r0 hr0).1
  refine ⟨s.cell, hcne, rfl, ?_, hinv.winner_exists hcne, hinv.winner_unique, ?_,
    hinv.cell_not_closed, hinv.closed_nodup, hinv.created_nodup⟩
  · intro i
    obtain ⟨r, hr⟩ := hdone i
    rcases (hinv.done_r i r hr).2 with h | h
    · exact Or.inl (by rw [hr, h])
    · exact Or.inr (by rw [hr, h])
  · intro x
    constructor
    · intro hx
      rcases hinv.created_cover x hx with h | h | ⟨i, hi⟩
      · exact Or.inl h
      · exact Or.inr h
      · obtain ⟨r, hr⟩ := hdone i
        rw [hr] at hi
        cases hi
    · intro hx
      rcases hx with h | h
      · subst h
        rcases hinv.cell_mem with h0 | hmem
        · exact absurd h0 hcne
        · exact hmem
      · exact hinv.closed_sub x h

/-- C9 (code bug): the claim that all N callers observe the same final
handle value fails on the source. The success arm of the compare-exchange
in AtomicHandle::get_or_init, Ok(new_handle) yielding new_handle, is a
pattern binding that shadows the candidate with the Ok payload — the
previous value of the cell, which on success is the compared-against
sentinel CLOSED_HANDLE = 0 — so the winning caller finishes with
BorrowedHandle of the closed sentinel while every other caller observes
the published handle. Evaluated on the concrete two-caller race
raceFinal, reachable from the initial state: the published cell holds 1
and the losing caller observes it, but the winner observes the sentinel,
so not all callers observe the cell value; the resource half of the claim
does hold there (the created handles are exactly the surviving published
one plus the closed ones, nothing is leaked or closed twice). -/
theorem atomicHandle_race_winner_sentinel :
    Relation.ReflTransGen AtomicHandle.Step (AtomicHandle.init 2) raceFinal ∧
    raceFinal.cell = 1 ∧
    raceFinal.threads 1 = .done raceFinal.cell ∧
    raceFinal.threads 0 = .done CLOSED_HANDLE ∧
    ¬ (∀ i : Fin 2, raceFinal.threads i = .done raceFinal.cell) ∧
    (∀ x, x ∈ raceFinal.created ↔ (x = raceFinal.cell ∨ x ∈ raceFinal.closed)) ∧
    raceFinal.cell ∉ raceFinal.closed ∧
    raceFinal.closed.Nodup ∧ raceFinal.created.Nodup := by
  refine ⟨?_, by decide, by decide, by decide, ?_, ?_, by decide, by decide, by decide⟩
  · have h1 := AtomicHandle.Step.loadZeroCreate (AtomicHandle.init 2) 0 rfl rfl
    have h2 := AtomicHandle.Step.loadZeroCreate
      (AtomicHandle.applyLoadCreate (AtomicHandle.init 2) 0) 1 (by decide) rfl
    have h3 := AtomicHandle.Step.casSuccess
      (AtomicHandle.applyLoadCreate
        (AtomicHandle.applyLoadCreate (AtomicHandle.init 2) 0) 1) 0 1 (by decide) rfl
    have h4 := AtomicHandle.Step.casFailure
      (AtomicHandle.applyCasSuccess
        (AtomicHandle.applyLoadCreate
          (AtomicHandle.applyLoadCreate (AtomicHandle.init 2) 0) 1) 0 1) 1 2
      (by decide) (by decide)
    exact Relation.ReflTransGen.tail (Relation.ReflTransGen.tail
      (Relation.ReflTransGen.tail (Relation.ReflTransGen.tail
        Relation.ReflTransGen.refl h1) h2) h3) h4
  · intro hall
    exact absurd (hall 0) (by decide)
  · intro x
    show x ∈ [2, 1] ↔ (x = 1 ∨ x ∈ [2])
    simp only [List.mem_cons, List.not_mem_nil, or_false]
    omega

end CtruRt
